import Mathlib

/-!
Shallow embedding of the form-builder document store
(src/src/store/formBuilderStore.ts).  The store keeps the ordered list of
form components, form settings, a nullable selected component, a bounded
linear history of snapshots with a cursor, and a one-slot recently-deleted
buffer.  TypeScript objects become structures; JavaScript arrays become
lists; `Partial` update records become structures of options; the
nondeterministic `Date.now()` inside `removeComponent` is passed in as an
explicit `now` argument.
-/

namespace FormBuilder

/-- One form element (interface FormComponent, formBuilderStore.ts lines 4-11). -/
structure FormComponent where
  id : String
  type : String
  label : String
  placeholder : Option String := none
  required : Option Bool := none
  options : Option (List String) := none
deriving Repr, DecidableEq

/-- Form-level settings (interface FormSettings, lines 13-18). -/
structure FormSettings where
  title : String
  description : String
  requireLogin : Bool
  collectEmail : Bool
deriving Repr, DecidableEq

/-- One history entry (interface HistoryState, lines 20-24). -/
structure HistoryState where
  components : List FormComponent
  formSettings : FormSettings
  selectedComponent : Option FormComponent
deriving Repr, DecidableEq

/-- The recently-deleted slot record (lines 37-41). -/
structure RecentlyDeleted where
  component : FormComponent
  index : Nat
  timestamp : Nat
deriving Repr, DecidableEq

/-- The whole store state (interface FormBuilderState, lines 26-62;
`isPreviewMode` included even though no claim touches it). -/
structure FormBuilderState where
  components : List FormComponent
  selectedComponent : Option FormComponent
  formSettings : FormSettings
  isPreviewMode : Bool
  history : List HistoryState
  currentHistoryIndex : Nat
  recentlyDeleted : Option RecentlyDeleted
deriving Repr, DecidableEq

/-- A `Partial FormComponent` argument of updateComponent: `none` means the
key is absent from the update object, `some v` that it is present with
value `v` (for the optional fields, present with a defined value). -/
structure ComponentUpdates where
  id : Option String := none
  type : Option String := none
  label : Option String := none
  placeholder : Option String := none
  required : Option Bool := none
  options : Option (List String) := none
deriving Repr, DecidableEq

/-- A `Partial FormSettings` argument of updateFormSettings. -/
structure SettingsUpdates where
  title : Option String := none
  description : Option String := none
  requireLogin : Option Bool := none
  collectEmail : Option Bool := none
deriving Repr, DecidableEq

/-- JavaScript object spread: keys present in the update override. -/
def mergeComponent (c : FormComponent) (u : ComponentUpdates) : FormComponent :=
  { id := u.id.getD c.id
    type := u.type.getD c.type
    label := u.label.getD c.label
    placeholder := match u.placeholder with
      | some p => some p
      | none => c.placeholder
    required := match u.required with
      | some r => some r
      | none => c.required
    options := match u.options with
      | some o => some o
      | none => c.options }

/-- Object spread for the settings (line 163). -/
def mergeSettings (s : FormSettings) (u : SettingsUpdates) : FormSettings :=
  { title := u.title.getD s.title
    description := u.description.getD s.description
    requireLogin := u.requireLogin.getD s.requireLogin
    collectEmail := u.collectEmail.getD s.collectEmail }

/-- initialFormSettings (lines 64-69). -/
def initialFormSettings : FormSettings :=
  { title := "", description := "", requireLogin := false, collectEmail := false }

/-- createHistoryState (lines 71-75); the shallow copies of the source are
the identity under value semantics. -/
def createHistoryState (s : FormBuilderState) : HistoryState :=
  { components := s.components
    formSettings := s.formSettings
    selectedComponent := s.selectedComponent }

/-- pushToHistory (lines 78-93): snapshot the current state, truncate the
redo branch, append, keep the last 50 entries (`slice(-50)`), and point the
cursor at the last entry. -/
def pushToHistory (s : FormBuilderState) : FormBuilderState :=
  let newHistory := s.history.take (s.currentHistoryIndex + 1) ++ [createHistoryState s]
  let limitedHistory := newHistory.drop (newHistory.length - 50)
  { s with history := limitedHistory, currentHistoryIndex := limitedHistory.length - 1 }

/-- initialState (lines 95-103). -/
def initialState : FormBuilderState :=
  let empty : FormBuilderState :=
    { components := []
      selectedComponent := none
      formSettings := initialFormSettings
      isPreviewMode := false
      history := []
      currentHistoryIndex := 0
      recentlyDeleted := none }
  { empty with history := [createHistoryState empty] }

/-- addComponent (lines 108-114). -/
def addComponent (s : FormBuilderState) (c : FormComponent) : FormBuilderState :=
  let s := pushToHistory s
  { s with components := s.components ++ [c], recentlyDeleted := none }

/-- updateComponent (lines 116-127): snapshot, merge the update into every
component whose id matches, synchronize the selection when its id matches,
clear the recently-deleted slot. -/
def updateComponent (s : FormBuilderState) (i : String) (u : ComponentUpdates) :
    FormBuilderState :=
  let s := pushToHistory s
  { s with
    components := s.components.map fun c => if c.id = i then mergeComponent c u else c
    selectedComponent := match s.selectedComponent with
      | some sel => if sel.id = i then some (mergeComponent sel u) else some sel
      | none => none
    recentlyDeleted := none }

/-- removeComponent (lines 129-146): only acts when a component with the id
exists; then snapshots, filters it out, clears a matching selection and
records the component, its index and the current time in the slot. -/
def removeComponent (s : FormBuilderState) (i : String) (now : Nat) : FormBuilderState :=
  match s.components.findIdx? (fun c => c.id = i) with
  | none => s
  | some componentIndex =>
    match s.components[componentIndex]? with
    | none => s
    | some componentToDelete =>
      let s := pushToHistory s
      { s with
        components := s.components.filter fun c => ¬ c.id = i
        selectedComponent := match s.selectedComponent with
          | some sel => if sel.id = i then none else some sel
          | none => none
        recentlyDeleted := some
          { component := componentToDelete, index := componentIndex, timestamp := now } }

/-- selectComponent (lines 148-150): replaces the selection, no history. -/
def selectComponent (s : FormBuilderState) (c : Option FormComponent) : FormBuilderState :=
  { s with selectedComponent := c }

/-- reorderComponents (lines 152-158). -/
def reorderComponents (s : FormBuilderState) (cs : List FormComponent) : FormBuilderState :=
  let s := pushToHistory s
  { s with components := cs, recentlyDeleted := none }

/-- updateFormSettings (lines 160-166). -/
def updateFormSettings (s : FormBuilderState) (u : SettingsUpdates) : FormBuilderState :=
  let s := pushToHistory s
  { s with formSettings := mergeSettings s.formSettings u, recentlyDeleted := none }

/-- setPreviewMode (lines 168-170). -/
def setPreviewMode (s : FormBuilderState) (b : Bool) : FormBuilderState :=
  { s with isPreviewMode := b }

/-- reset (lines 172-183). -/
def reset (_s : FormBuilderState) : FormBuilderState :=
  initialState

/-- undo (lines 185-201): when the cursor is positive, step it back and
restore that entry, clearing the slot; returns whether it acted.  The inner
`none` branch is unreachable for every state satisfying the store invariant
(the source would throw there on reading a missing entry). -/
def undo (s : FormBuilderState) : Bool × FormBuilderState :=
  if s.currentHistoryIndex > 0 then
    let newIndex := s.currentHistoryIndex - 1
    match s.history[newIndex]? with
    | some h =>
      (true,
        { s with
          components := h.components
          formSettings := h.formSettings
          selectedComponent := h.selectedComponent
          currentHistoryIndex := newIndex
          recentlyDeleted := none })
    | none => (true, s)
  else
    (false, s)

/-- redo (lines 203-219): symmetric to undo. -/
def redo (s : FormBuilderState) : Bool × FormBuilderState :=
  if s.currentHistoryIndex < s.history.length - 1 then
    let newIndex := s.currentHistoryIndex + 1
    match s.history[newIndex]? with
    | some h =>
      (true,
        { s with
          components := h.components
          formSettings := h.formSettings
          selectedComponent := h.selectedComponent
          currentHistoryIndex := newIndex
          recentlyDeleted := none })
    | none => (true, s)
  else
    (false, s)

/-- canUndo (lines 221-223). -/
def canUndo (s : FormBuilderState) : Bool :=
  decide (s.currentHistoryIndex > 0)

/-- canRedo (lines 225-228). -/
def canRedo (s : FormBuilderState) : Bool :=
  decide (s.currentHistoryIndex < s.history.length - 1)

/-- undoDelete (lines 230-242): reinsert the recorded component at its
recorded index (`splice(index, 0, component)`, which clamps to the end) and
clear the slot; no history snapshot. -/
def undoDelete (s : FormBuilderState) : FormBuilderState :=
  match s.recentlyDeleted with
  | none => s
  | some r =>
    { s with
      components := s.components.take r.index ++ [r.component] ++ s.components.drop r.index
      recentlyDeleted := none }

/-- clearRecentlyDeleted (lines 244-246). -/
def clearRecentlyDeleted (s : FormBuilderState) : FormBuilderState :=
  { s with recentlyDeleted := none }

/-- The structural mutations of the store: the operations that snapshot
history (removal only when the id exists). -/
inductive Mutation where
  | add (c : FormComponent)
  | update (i : String) (u : ComponentUpdates)
  | remove (i : String) (now : Nat)
  | reorder (cs : List FormComponent)
  | settings (u : SettingsUpdates)
deriving Repr, DecidableEq

def applyMutation (s : FormBuilderState) : Mutation → FormBuilderState
  | .add c => addComponent s c
  | .update i u => updateComponent s i u
  | .remove i now => removeComponent s i now
  | .reorder cs => reorderComponents s cs
  | .settings u => updateFormSettings s u

/-- Every operation of the store interface (structural mutations and the
rest). -/
inductive Op where
  | mutOp (m : Mutation)
  | select (c : Option FormComponent)
  | preview (b : Bool)
  | resetOp
  | undoOp
  | redoOp
  | undoDeleteOp
  | clearSlot
deriving Repr, DecidableEq

def applyOp (s : FormBuilderState) : Op → FormBuilderState
  | .mutOp m => applyMutation s m
  | .select c => selectComponent s c
  | .preview b => setPreviewMode s b
  | .resetOp => reset s
  | .undoOp => (undo s).2
  | .redoOp => (redo s).2
  | .undoDeleteOp => undoDelete s
  | .clearSlot => clearRecentlyDeleted s

/-- The history invariant of the store: the cursor is in bounds and the
history is capped at 50 entries. -/
def Inv (s : FormBuilderState) : Prop :=
  s.currentHistoryIndex < s.history.length ∧ s.history.length ≤ 50

instance (s : FormBuilderState) : Decidable (Inv s) := by
  unfold Inv; infer_instance

/-! Concrete components used by the concrete scenarios of the spec. -/

def fieldF1 : FormComponent := { id := "f1", type := "text", label := "Name" }

def fieldF2 : FormComponent :=
  { id := "f2", type := "select", label := "Color", options := some ["Red", "Blue"] }

def fieldF3 : FormComponent := { id := "f3", type := "text", label := "M" }

/-! Helper lemmas. -/

theorem pushToHistory_history (s : FormBuilderState) :
    (pushToHistory s).history =
      (s.history.take (s.currentHistoryIndex + 1) ++ [createHistoryState s]).drop
        ((s.history.take (s.currentHistoryIndex + 1) ++ [createHistoryState s]).length - 50) :=
  rfl

theorem pushToHistory_index (s : FormBuilderState) :
    (pushToHistory s).currentHistoryIndex = (pushToHistory s).history.length - 1 :=
  rfl

theorem inv_pushToHistory (s : FormBuilderState) (h : Inv s) : Inv (pushToHistory s) := by
  obtain ⟨h1, h2⟩ := h
  constructor
  · rw [pushToHistory_index, pushToHistory_history]
    simp only [List.length_drop, List.length_append, List.length_take, List.length_cons,
      List.length_nil]
    omega
  · rw [pushToHistory_history]
    simp only [List.length_drop, List.length_append, List.length_take, List.length_cons,
      List.length_nil]
    omega

theorem inv_mut (s : FormBuilderState) (m : Mutation) (h : Inv s) : Inv (applyMutation s m) := by
  have hp := inv_pushToHistory s h
  cases m with
  | add c => exact hp
  | update i u => exact hp
  | remove i now =>
    show Inv (removeComponent s i now)
    simp only [removeComponent]
    split
    · exact h
    · split
      · exact h
      · exact hp
  | reorder cs => exact hp
  | settings u => exact hp

theorem inv_initialState : Inv initialState := by decide

theorem inv_undo (s : FormBuilderState) (h : Inv s) : Inv (undo s).2 := by
  simp only [undo]
  split
  · split
    · exact ⟨Nat.lt_of_le_of_lt (Nat.sub_le _ _) h.1, h.2⟩
    · exact h
  · exact h

theorem inv_redo (s : FormBuilderState) (h : Inv s) : Inv (redo s).2 := by
  simp only [redo]
  by_cases hlt : s.currentHistoryIndex < s.history.length - 1
  · rw [if_pos hlt]
    have hl : s.currentHistoryIndex + 1 < s.history.length := by omega
    rw [List.getElem?_eq_getElem hl]
    exact ⟨hl, h.2⟩
  · rw [if_neg hlt]
    exact h

theorem inv_applyOp (s : FormBuilderState) (op : Op) (h : Inv s) : Inv (applyOp s op) := by
  cases op with
  | mutOp m => exact inv_mut s m h
  | select c => exact h
  | preview b => exact h
  | resetOp => exact inv_initialState
  | undoOp => exact inv_undo s h
  | redoOp => exact inv_redo s h
  | undoDeleteOp =>
    show Inv (undoDelete s)
    simp only [undoDelete]
    split
    · exact h
    · exact h
  | clearSlot => exact h

theorem inv_foldl (s : FormBuilderState) (ops : List Op) (h : Inv s) :
    Inv (ops.foldl applyOp s) := by
  induction ops generalizing s with
  | nil => exact h
  | cons op ops ih => exact ih (applyOp s op) (inv_applyOp s op h)

theorem getLast?_drop_of_lt {α : Type} (l : List α) (k : Nat) (h : k < l.length) :
    (l.drop k).getLast? = l.getLast? := by
  rw [List.getLast?_eq_getElem?, List.getLast?_eq_getElem?, List.length_drop,
    List.getElem?_drop]
  congr 1
  omega

theorem pushToHistory_getLast (s : FormBuilderState) :
    (pushToHistory s).history.getLast? = some (createHistoryState s) := by
  rw [pushToHistory_history, getLast?_drop_of_lt, List.getLast?_concat]
  simp only [List.length_append, List.length_cons, List.length_nil]
  omega

theorem removeComponent_spec (s : FormBuilderState) (i : String) (now : Nat) (j : Nat)
    (c : FormComponent)
    (hfind : s.components.findIdx? (fun x => x.id = i) = some j)
    (hget : s.components[j]? = some c) :
    removeComponent s i now =
      { pushToHistory s with
        components := s.components.filter fun x => ¬ x.id = i
        selectedComponent := match s.selectedComponent with
          | some sel => if sel.id = i then none else some sel
          | none => none
        recentlyDeleted := some { component := c, index := j, timestamp := now } } := by
  simp only [removeComponent, hfind, hget]
  rfl

/-! Claim theorems. -/

/-- Claim C1: the round-trip property fails on the code.  Already for the
single structural mutation `addComponent fieldF1` from the initial state,
one `undo` followed by one `redo` leaves the components empty instead of
restoring the post-mutation sequence `[fieldF1]`: `pushToHistory` snapshots
the state before the mutation and the post-mutation state itself is never
stored in the history, so `redo` restores a stale pre-mutation snapshot. -/
theorem c1_roundtrip_fails_on_code :
    (addComponent initialState fieldF1).components = [fieldF1] ∧
    (redo (undo (addComponent initialState fieldF1)).2).2.components = [] := by
  exact ⟨rfl, rfl⟩

/-- Claim C2: the concrete scenario of the spec fails on the code.  After
adding `fieldF1` and `fieldF2` and updating `"f1"` with `required := true`,
a single `undo` restores the snapshot taken before the second add, so the
components are `[fieldF1]` and `fieldF2` is gone (the claim expects it to
be still present), and the following `redo` leaves `required` unset on
`"f1"` (the claim expects `required := true` to be restored). -/
theorem c2_concrete_scenario_fails_on_code :
    (undo (updateComponent (addComponent (addComponent initialState fieldF1) fieldF2)
        "f1" { required := some true })).2.components = [fieldF1] ∧
    (redo (undo (updateComponent (addComponent (addComponent initialState fieldF1) fieldF2)
        "f1" { required := some true })).2).2.components.map
        (fun c => (c.id, c.required)) = [("f1", none), ("f2", none)] := by
  exact ⟨rfl, rfl⟩

/-- Claim C3: branch discard fails on the code as stated.  After two adds,
one `undo` and a new mutation (adding `fieldF3`), the history entries are
three empty snapshots rather than the claimed `[S0, S1, M-result]`: the
post-mutation states S1 and M-result never enter the history because every
entry is a pre-mutation snapshot.  The part of the claim that S2 is
unreachable does hold: the cursor sits at the tip, so `redo` returns
false. -/
theorem c3_branch_discard_fails_on_code :
    (addComponent (undo (addComponent (addComponent initialState fieldF1) fieldF2)).2
        fieldF3).history.map (fun h => h.components) = [[], [], []] ∧
    (addComponent (undo (addComponent (addComponent initialState fieldF1) fieldF2)).2
        fieldF3).components = [fieldF3] ∧
    (redo (addComponent (undo (addComponent (addComponent initialState fieldF1) fieldF2)).2
        fieldF3)).1 = false := by
  exact ⟨rfl, rfl, rfl⟩

/-- Claim C4: every operation of the store preserves the invariant that the
cursor is strictly below the history length (hence nonnegative and in
bounds) and that the history holds at most 50 entries; moreover the history
produced by `pushToHistory` is a suffix of the truncated history with the
new snapshot appended (oldest entries dropped first), of length capped at
50. -/
theorem c4_history_invariants (s : FormBuilderState) (ops : List Op) (h : Inv s) :
    Inv (ops.foldl applyOp s) ∧
    (pushToHistory s).history <:+
      (s.history.take (s.currentHistoryIndex + 1) ++ [createHistoryState s]) ∧
    (pushToHistory s).history.length =
      min ((s.history.take (s.currentHistoryIndex + 1) ++ [createHistoryState s]).length)
        50 := by
  refine ⟨inv_foldl s ops h, ?_, ?_⟩
  · rw [pushToHistory_history]
    exact List.drop_suffix _ _
  · rw [pushToHistory_history]
    simp only [List.length_drop]
    omega

/-- Witness for C4 at the initial state and one concrete mutation. -/
theorem c4_history_invariants_witness :
    Inv (([Op.mutOp (Mutation.add fieldF1)]).foldl applyOp initialState) ∧
    (pushToHistory initialState).history <:+
      (initialState.history.take (initialState.currentHistoryIndex + 1) ++
        [createHistoryState initialState]) ∧
    (pushToHistory initialState).history.length =
      min ((initialState.history.take (initialState.currentHistoryIndex + 1) ++
        [createHistoryState initialState]).length) 50 :=
  c4_history_invariants initialState [Op.mutOp (Mutation.add fieldF1)] (by decide)

/-- Claim C5: `undo` returns true and changes the state exactly when the
cursor was positive, and otherwise returns false leaving the state
unchanged; `redo` is symmetric with the condition that the cursor is below
`history.length - 1`; `canUndo` and `canRedo` are pure predicates equal to
those conditions. -/
theorem c5_undo_redo_guards (s : FormBuilderState) (hInv : Inv s) :
    (((undo s).1 = true ∧ (undo s).2 ≠ s) ↔ 0 < s.currentHistoryIndex) ∧
    (¬ 0 < s.currentHistoryIndex → (undo s).1 = false ∧ (undo s).2 = s) ∧
    (((redo s).1 = true ∧ (redo s).2 ≠ s) ↔
      s.currentHistoryIndex < s.history.length - 1) ∧
    (¬ s.currentHistoryIndex < s.history.length - 1 →
      (redo s).1 = false ∧ (redo s).2 = s) ∧
    (canUndo s = true ↔ 0 < s.currentHistoryIndex) ∧
    (canRedo s = true ↔ s.currentHistoryIndex < s.history.length - 1) := by
  obtain ⟨h1, h2⟩ := hInv
  refine ⟨⟨fun hu => ?_, fun hidx => ?_⟩, fun hidx => ?_, ⟨fun hr => ?_, fun hidx => ?_⟩,
    fun hidx => ?_, ?_, ?_⟩
  · by_contra hidx
    have hf : (undo s).1 = false := by simp [undo, hidx]
    rw [hf] at hu
    exact absurd hu.1 (by simp)
  · have hl : s.currentHistoryIndex - 1 < s.history.length := by omega
    have hget := List.getElem?_eq_getElem hl
    refine ⟨by simp [undo, hidx, hget], fun he => ?_⟩
    have hproj := congrArg FormBuilderState.currentHistoryIndex he
    simp only [undo, if_pos hidx, hget] at hproj
    omega
  · simp [undo, hidx]
  · by_contra hidx
    have hf : (redo s).1 = false := by simp [redo, hidx]
    rw [hf] at hr
    exact absurd hr.1 (by simp)
  · have hl : s.currentHistoryIndex + 1 < s.history.length := by omega
    have hget := List.getElem?_eq_getElem hl
    refine ⟨by simp [redo, hidx, hget], fun he => ?_⟩
    have hproj := congrArg FormBuilderState.currentHistoryIndex he
    simp only [redo, if_pos hidx, hget] at hproj
    omega
  · simp [redo, hidx]
  · simp [canUndo]
  · simp [canRedo]

/-- Witness for C5 at the initial state. -/
theorem c5_undo_redo_guards_witness :
    (((undo initialState).1 = true ∧ (undo initialState).2 ≠ initialState) ↔
      0 < initialState.currentHistoryIndex) ∧
    (¬ 0 < initialState.currentHistoryIndex →
      (undo initialState).1 = false ∧ (undo initialState).2 = initialState) ∧
    (((redo initialState).1 = true ∧ (redo initialState).2 ≠ initialState) ↔
      initialState.currentHistoryIndex < initialState.history.length - 1) ∧
    (¬ initialState.currentHistoryIndex < initialState.history.length - 1 →
      (redo initialState).1 = false ∧ (redo initialState).2 = initialState) ∧
    (canUndo initialState = true ↔ 0 < initialState.currentHistoryIndex) ∧
    (canRedo initialState = true ↔
      initialState.currentHistoryIndex < initialState.history.length - 1) :=
  c5_undo_redo_guards initialState (by decide)

/-- Claim C6: `removeComponent` on an id matching no component leaves the
whole state (history and cursor included) unchanged, while
`updateComponent` on such an id leaves the components unchanged and yet
still pushes a history snapshot: its history and cursor are those of
`pushToHistory` and the last history entry is the snapshot of the prior
state. -/
theorem c6_missing_id_remove_vs_update (s : FormBuilderState) (i : String)
    (u : ComponentUpdates) (now : Nat) (habs : ∀ c ∈ s.components, c.id ≠ i) :
    removeComponent s i now = s ∧
    (updateComponent s i u).components = s.components ∧
    (updateComponent s i u).history = (pushToHistory s).history ∧
    (updateComponent s i u).currentHistoryIndex = (pushToHistory s).currentHistoryIndex ∧
    (updateComponent s i u).history.getLast? = some (createHistoryState s) := by
  have hfind : s.components.findIdx? (fun x => x.id = i) = none := by
    rw [List.findIdx?_eq_none_iff]
    intro x hx
    simpa using habs x hx
  refine ⟨?_, ?_, rfl, rfl, pushToHistory_getLast s⟩
  · simp only [removeComponent, hfind]
  · show (s.components.map fun c => if c.id = i then mergeComponent c u else c) =
      s.components
    have hmap : (s.components.map fun c => if c.id = i then mergeComponent c u else c) =
        s.components.map id :=
      List.map_congr_left fun a ha => by simp [habs a ha]
    rw [hmap, List.map_id]

/-- Witness for C6 at the initial state, whose components are empty. -/
theorem c6_missing_id_remove_vs_update_witness :
    removeComponent initialState "f1" 0 = initialState ∧
    (updateComponent initialState "f1" { }).components = initialState.components ∧
    (updateComponent initialState "f1" { }).history = (pushToHistory initialState).history ∧
    (updateComponent initialState "f1" { }).currentHistoryIndex =
      (pushToHistory initialState).currentHistoryIndex ∧
    (updateComponent initialState "f1" { }).history.getLast? =
      some (createHistoryState initialState) :=
  c6_missing_id_remove_vs_update initialState "f1" { } 0 (by decide)

/-- Claim C7: for a component `F` whose id is not already present, the
sequence `addComponent F`, `removeComponent F.id`, `undoDelete` puts the
components back to exactly the sequence right after the add (`F` reinserted
at its original index `s.components.length`); the removal records the
component, its index and the timestamp in the recently-deleted slot, and
`undoDelete` clears the slot without touching the history. -/
theorem c7_delete_restore (s : FormBuilderState) (F : FormComponent) (now : Nat)
    (hfresh : ∀ c ∈ s.components, c.id ≠ F.id) :
    (removeComponent (addComponent s F) F.id now).recentlyDeleted =
      some { component := F, index := s.components.length, timestamp := now } ∧
    (undoDelete (removeComponent (addComponent s F) F.id now)).components =
      (addComponent s F).components ∧
    (undoDelete (removeComponent (addComponent s F) F.id now)).history =
      (removeComponent (addComponent s F) F.id now).history ∧
    (undoDelete (removeComponent (addComponent s F) F.id now)).recentlyDeleted = none := by
  have hnone : s.components.findIdx? (fun x => x.id = F.id) = none := by
    rw [List.findIdx?_eq_none_iff]
    intro x hx
    simpa using hfresh x hx
  have hfind : (addComponent s F).components.findIdx? (fun x => x.id = F.id) =
      some s.components.length := by
    show (s.components ++ [F]).findIdx? (fun x => x.id = F.id) = some s.components.length
    rw [List.findIdx?_append, hnone]
    simp
  have hget : (addComponent s F).components[s.components.length]? = some F :=
    List.getElem?_concat_length s.components F
  have hrw := removeComponent_spec (addComponent s F) F.id now s.components.length F
    hfind hget
  have hfilter : ((s.components ++ [F]).filter fun x => ¬ x.id = F.id) = s.components := by
    rw [List.filter_append]
    have hl : (s.components.filter fun x => ¬ x.id = F.id) = s.components :=
      List.filter_eq_self.mpr fun a ha => by simpa using hfresh a ha
    have hr : (([F] : List FormComponent).filter fun x => ¬ x.id = F.id) = [] := by simp
    rw [hl, hr, List.append_nil]
  rw [hrw]
  refine ⟨rfl, ?_, rfl, rfl⟩
  show (((s.components ++ [F]).filter fun x => ¬ x.id = F.id).take s.components.length ++
      [F] ++
      ((s.components ++ [F]).filter fun x => ¬ x.id = F.id).drop s.components.length) =
    s.components ++ [F]
  rw [hfilter, List.take_length, List.drop_length, List.append_nil]

/-- Witness for C7 at the initial state and `fieldF1`. -/
theorem c7_delete_restore_witness :
    (removeComponent (addComponent initialState fieldF1) fieldF1.id 5).recentlyDeleted =
      some { component := fieldF1, index := initialState.components.length,
             timestamp := 5 } ∧
    (undoDelete (removeComponent (addComponent initialState fieldF1) fieldF1.id
        5)).components = (addComponent initialState fieldF1).components ∧
    (undoDelete (removeComponent (addComponent initialState fieldF1) fieldF1.id
        5)).history = (removeComponent (addComponent initialState fieldF1) fieldF1.id
        5).history ∧
    (undoDelete (removeComponent (addComponent initialState fieldF1) fieldF1.id
        5)).recentlyDeleted = none :=
  c7_delete_restore initialState fieldF1 5 (by decide)

/-- Claim C8: the structural mutations that follow a removal clear the
recently-deleted slot (add, update, reorder and settings-update all set it
to none), so the sequence `removeComponent`, `addComponent g`, `undoDelete`
leaves the state unchanged by the `undoDelete` call: the slot was cleared
by the intervening add, making `undoDelete` a no-op. -/
theorem c8_mutation_clears_slot (s : FormBuilderState) (c g : FormComponent) (i : String)
    (u : ComponentUpdates) (su : SettingsUpdates) (cs : List FormComponent) (now : Nat) :
    (addComponent s c).recentlyDeleted = none ∧
    (updateComponent s i u).recentlyDeleted = none ∧
    (reorderComponents s cs).recentlyDeleted = none ∧
    (updateFormSettings s su).recentlyDeleted = none ∧
    undoDelete (addComponent (removeComponent s i now) g) =
      addComponent (removeComponent s i now) g :=
  ⟨rfl, rfl, rfl, rfl, rfl⟩

/-- Claim C9: after selecting a component `X` present in the document and
updating `X.id` with a new label, the current selection carries the new
label, never a stale pre-update copy. -/
theorem c9_selection_consistency (s : FormBuilderState) (X : FormComponent)
    (hmem : X ∈ s.components) :
    ((updateComponent (selectComponent s (some X)) X.id
        { label := some "new" }).selectedComponent).map (fun c => c.label) =
      some "new" := by
  show (Option.map (fun c => c.label)
    (if X.id = X.id then some (mergeComponent X { label := some "new" }) else some X)) =
    some "new"
  rw [if_pos rfl]
  rfl

/-- Witness for C9 on a document containing `fieldF1`. -/
theorem c9_selection_consistency_witness :
    ((updateComponent (selectComponent (addComponent initialState fieldF1) (some fieldF1))
        fieldF1.id { label := some "new" }).selectedComponent).map (fun c => c.label) =
      some "new" :=
  c9_selection_consistency (addComponent initialState fieldF1) fieldF1 (by decide)

/-- Claim C10: immediately after every structural mutation (add, update,
reorder, settings-update, and remove on an existing id) the cursor equals
`history.length - 1`, so `canRedo` returns false. -/
theorem c10_cursor_at_tip_after_mutation (s : FormBuilderState) (m : Mutation)
    (hex : ∀ i now, m = Mutation.remove i now → ∃ c ∈ s.components, c.id = i) :
    (applyMutation s m).currentHistoryIndex = (applyMutation s m).history.length - 1 ∧
    canRedo (applyMutation s m) = false := by
  have gen2 : ∀ t : FormBuilderState, canRedo (pushToHistory t) = false := by
    intro t
    simp only [canRedo, pushToHistory_index]
    simp
  cases m with
  | add c => exact ⟨rfl, gen2 s⟩
  | update i u => exact ⟨rfl, gen2 s⟩
  | reorder cs => exact ⟨rfl, gen2 s⟩
  | settings u => exact ⟨rfl, gen2 s⟩
  | remove i now =>
    obtain ⟨c, hc, hci⟩ := hex i now rfl
    have hfind : s.components.findIdx? (fun x => x.id = i) =
        some (s.components.findIdx (fun x => x.id = i)) :=
      List.findIdx?_eq_some_of_exists ⟨c, hc, by simpa using hci⟩
    have hlt : s.components.findIdx (fun x => x.id = i) < s.components.length :=
      List.findIdx_lt_length_of_exists ⟨c, hc, by simpa using hci⟩
    have hget := List.getElem?_eq_getElem hlt
    have hrw := removeComponent_spec s i now _ _ hfind hget
    show (removeComponent s i now).currentHistoryIndex =
        (removeComponent s i now).history.length - 1 ∧
      canRedo (removeComponent s i now) = false
    rw [hrw]
    exact ⟨rfl, gen2 s⟩

/-- Witness for C10: removing the existing id of `fieldF1`. -/
theorem c10_cursor_at_tip_after_mutation_witness :
    (applyMutation (addComponent initialState fieldF1)
        (Mutation.remove "f1" 7)).currentHistoryIndex =
      (applyMutation (addComponent initialState fieldF1)
        (Mutation.remove "f1" 7)).history.length - 1 ∧
    canRedo (applyMutation (addComponent initialState fieldF1)
      (Mutation.remove "f1" 7)) = false :=
  c10_cursor_at_tip_after_mutation (addComponent initialState fieldF1)
    (Mutation.remove "f1" 7) (fun i now h => by cases h; decide)

end FormBuilder
